import Mathlib

/-!
# Verification of the workbox-background-sync `Queue`

A shallow embedding of `packages/workbox-background-sync/src/lib/Queue` (the
file `Queue.mjs` of this repository): a durable retry queue that stores failed
requests in a keyed persistent store and replays them later.

Modelling conventions:

* The persistent store (the `indexedDBHelper` collaborator, external to the
  queue) is a list of `(key, entry)` pairs; `getAll()` returns it in key
  order, `add` appends with a fresh auto-incremented key, `delete key`
  removes the pair with that key.
* Every observable action (callback invocation, network fetch attempt, store
  mutation, sync-registration attempt) is recorded in an event trace, so that
  ordering and invocation claims become statements about traces.
* Lifecycle callbacks are user code: each per-snapshot callback is modelled
  as a function returning the (possibly mutated) snapshot together with a
  `Bool` that is `true` when the callback throws; `_runCallback` invokes a
  callback only when it is present.
* The environment `Env` decides external outcomes: the current clock, the
  success of each network fetch, and the success of each store operation.
* `Date.now()` is modelled as constant (`Env.now`) during one pass.
* The `StorableRequest` module is not part of the sources; its conversions
  are modelled from the spec (see the doc comments marked
  `Modelled from the spec:`).
-/

namespace Workbox

/-- A body is a byte sequence. -/
abbrev Bytes := List Nat

/-- The persisted ("plain object") representation of a request snapshot.
Modelled from the spec: the persisted record shape is
`{method, url, headers: [[name, value], ...], body?: bytes, mode, referrer,
timestamp: integer}` — headers are stored as a list of two-element lists. -/
structure StorableObject where
  method : String
  url : String
  headers : List (List String)
  body : Option Bytes
  mode : String
  referrer : String
  timestamp : Int
deriving Repr, DecidableEq

/-- A request snapshot (the in-memory `StorableRequest`): method, URL, header
pairs (order and case preserved), optional body bytes, credentials mode,
referrer, and capture timestamp in milliseconds. Modelled from the spec
(the `StorableRequest` source file is not under `src/`). -/
structure StorableRequest where
  method : String
  url : String
  headers : List (String × String)
  body : Option Bytes
  mode : String
  referrer : String
  timestamp : Int
deriving Repr, DecidableEq

/-- A live request value, as handed to `addRequest` or to the network. -/
structure Request where
  method : String
  url : String
  headers : List (String × String)
  body : Option Bytes
  mode : String
  referrer : String
deriving Repr, DecidableEq

/-- Modelled from the spec: methods that forbid a body (GET/HEAD). -/
def bodyForbidden (method : String) : Bool :=
  method == "GET" || method == "HEAD"

/-- Modelled from the spec: `StorableRequest.fromRequest` captures method,
URL, headers, credentials mode, referrer and, if the method permits a body,
the body bytes; the timestamp is set to the capture-time clock reading. -/
def StorableRequest.fromRequest (now : Int) (r : Request) : StorableRequest :=
  { method := r.method
    url := r.url
    headers := r.headers
    body := if bodyForbidden r.method then none else r.body
    mode := r.mode
    referrer := r.referrer
    timestamp := now }

/-- Modelled from the spec: serialization to the persisted representation;
header pairs become two-element lists. -/
def StorableRequest.toObject (s : StorableRequest) : StorableObject :=
  { method := s.method
    url := s.url
    headers := s.headers.map (fun p => [p.1, p.2])
    body := s.body
    mode := s.mode
    referrer := s.referrer
    timestamp := s.timestamp }

/-- Modelled from the spec: deserialization from the persisted representation
(the `new StorableRequest(object)` constructor); each stored two-element
header list becomes a pair. -/
def StorableRequest.fromObject (o : StorableObject) : StorableRequest :=
  { method := o.method
    url := o.url
    headers := o.headers.map (fun l => (l.getD 0 "", l.getD 1 ""))
    body := o.body
    mode := o.mode
    referrer := o.referrer
    timestamp := o.timestamp }

/-- Modelled from the spec: `toRequest` reconstructs an equivalent request;
methods without a body (GET/HEAD) never carry a reconstructed body even if
one was erroneously present in the snapshot. -/
def StorableRequest.toRequest (s : StorableRequest) : Request :=
  { method := s.method
    url := s.url
    headers := s.headers
    body := if bodyForbidden s.method then none else s.body
    mode := s.mode
    referrer := s.referrer }

/-- A persisted queue entry: `{queueName, storableRequest}` as written by
`addRequest` (`db.add({queueName: this._name, storableRequest:
storableRequest.toObject()})`). -/
structure Entry where
  queueName : String
  storableRequest : StorableObject
deriving Repr, DecidableEq

/-- The shared persistent store: `(key, entry)` pairs in ascending key order
(IndexedDB object store with `autoIncrement: true`). -/
abbrev Store := List (Nat × Entry)

/-- One observable action of the queue. Replay-path callback events and fetch
attempts additionally record the store key of the entry being processed, to
identify which entry's processing produced them. -/
inductive Event where
  | cbRequestWillQueue (s : StorableRequest)
  | cbRequestWillReplay (k : Nat) (s : StorableRequest)
  | cbRequestDidReplay (k : Nat) (s : StorableRequest)
  | cbReplayDidFail (k : Nat) (s : StorableRequest)
  | cbAllRequestsDidReplay (l : List StorableRequest)
  | fetchAttempt (k : Nat) (s : StorableRequest)
  | storeDelete (k : Nat)
  | storeAdd (k : Nat) (e : Entry)
  | registerSync (tag : String)
deriving Repr, DecidableEq

/-- The store key an event concerns, when it concerns a single entry. -/
def evKey : Event → Option Nat
  | .cbRequestWillReplay k _ => some k
  | .cbRequestDidReplay k _ => some k
  | .cbReplayDidFail k _ => some k
  | .fetchAttempt k _ => some k
  | .storeDelete k => some k
  | .storeAdd k _ => some k
  | _ => none

/-- A per-snapshot lifecycle callback: user code that may mutate the snapshot
it is handed (the mutated snapshot is the first component) and may throw
(second component `true`). -/
abbrev Callback := StorableRequest → StorableRequest × Bool

/-- The optional lifecycle callbacks handed to the `Queue` constructor.
`allRequestsDidReplay` receives the list of successfully replayed snapshots
and returns `true` when it throws. -/
structure Callbacks where
  requestWillQueue : Option Callback := none
  requestWillReplay : Option Callback := none
  requestDidReplay : Option Callback := none
  replayDidFail : Option Callback := none
  allRequestsDidReplay : Option (List StorableRequest → Bool) := none

/-- The per-instance configuration fixed at construction. -/
structure QueueConfig where
  name : String
  maxRetentionTime : Int
  callbacks : Callbacks

/-- The external world: the clock, the outcome of the network fetch for each
store key, and the outcome of each store operation. -/
structure Env where
  now : Int
  fetchOk : Nat → Bool
  deleteOk : Nat → Bool
  addOk : Bool
  getAllOk : Bool

/-- Semantics of `_runCallback(name, snapshot)`: invoke the callback if it exists;
absent callbacks leave the snapshot unchanged and do not throw. -/
def runCb (cb : Option Callback) (s : StorableRequest) : StorableRequest × Bool :=
  match cb with
  | none => (s, false)
  | some f => f s

/-- The trace of a `_runCallback` call: an invocation event exactly when the
callback is present. -/
def cbEvents (cb : Option Callback) (ev : Event) : List Event :=
  match cb with
  | none => []
  | some _ => [ev]

/-- The sync-registration tag for a queue name:
`` `${TAG_PREFIX}:${this._name}` `` with `TAG_PREFIX =
'workbox-background-sync'`. -/
def syncTag (name : String) : String :=
  "workbox-background-sync:" ++ name

/-- Outcome of `_replayRequest`, before the store effect is applied:
`success` (returned `true`; the entry's delete succeeded), `failure`
(an exception was caught, `replayDidFail` ran, returned `false`), or
`thrown` (the `replayDidFail` callback itself threw, so the exception
escapes `_replayRequest`). Each carries the trace of the call and, where
meaningful, the snapshot's final state. -/
inductive StepOut where
  | success (snap : StorableRequest) (trace : List Event)
  | failure (snap : StorableRequest) (trace : List Event)
  | thrown (trace : List Event)
deriving Repr

/-- The `catch` block of `_replayRequest`: run `replayDidFail` on the
snapshot's current state; if that callback itself throws, the exception
propagates. -/
def replayCatch (cbs : Callbacks) (k : Nat) (s : StorableRequest)
    (pre : List Event) : StepOut :=
  let (s', threw) := runCb cbs.replayDidFail s
  let tr := pre ++ cbEvents cbs.replayDidFail (.cbReplayDidFail k s)
  if threw then .thrown tr else .failure s' tr

/-- The control flow of `_replayRequest(key, storableRequest)`:
run `requestWillReplay`, fetch the reconstructed request, run
`requestDidReplay`, delete the entry; any exception in the `try` block
(a throwing callback, a failed fetch, a failed delete) jumps to the
`catch` block. The store delete is applied by `replayRequest` below,
exactly on the `success` outcome. -/
def replayStep (env : Env) (cbs : Callbacks) (k : Nat)
    (s : StorableRequest) : StepOut :=
  let (s1, t1) := runCb cbs.requestWillReplay s
  let e1 := cbEvents cbs.requestWillReplay (.cbRequestWillReplay k s)
  if t1 then replayCatch cbs k s1 e1
  else
    let e2 := e1 ++ [.fetchAttempt k s1]
    if env.fetchOk k then
      let (s2, t2) := runCb cbs.requestDidReplay s1
      let e3 := e2 ++ cbEvents cbs.requestDidReplay (.cbRequestDidReplay k s1)
      if t2 then replayCatch cbs k s2 e3
      else if env.deleteOk k then .success s2 (e3 ++ [.storeDelete k])
      else replayCatch cbs k s2 (e3 ++ [.storeDelete k])
    else replayCatch cbs k s1 e2

/-- Result of `_replayRequest` with its store effect: `done success snap
store trace`, or `thrown` when an exception escapes. -/
inductive RR where
  | done (success : Bool) (snap : StorableRequest) (store : Store)
      (trace : List Event)
  | thrown (store : Store) (trace : List Event)
deriving Repr

/-- Semantics of `_replayRequest(key, storableRequest)`: the only store mutation is the
`delete` of this entry's key, which has happened exactly when the step
succeeds; on the caught-failure path and on an escaping exception the store
is unchanged. -/
def replayRequest (env : Env) (cbs : Callbacks) (k : Nat)
    (s : StorableRequest) (store : Store) : RR :=
  match replayStep env cbs k s with
  | .success s' tr => .done true s' (store.filter (fun kv => kv.1 != k)) tr
  | .failure s' tr => .done false s' store tr
  | .thrown tr => .thrown store tr

/-- Whether `_replayRequest` on this entry returns `true`. -/
def entryOk (env : Env) (cbs : Callbacks) (k : Nat) (s : StorableRequest) : Bool :=
  match replayStep env cbs k s with
  | .success _ _ => true
  | _ => false

/-- Whether an exception escapes `_replayRequest` on this entry. -/
def entryThrown (env : Env) (cbs : Callbacks) (k : Nat) (s : StorableRequest) : Bool :=
  match replayStep env cbs k s with
  | .thrown _ => true
  | _ => false

/-- The trace of `_replayRequest` on this entry. -/
def entryTrace (env : Env) (cbs : Callbacks) (k : Nat) (s : StorableRequest) :
    List Event :=
  match replayStep env cbs k s with
  | .success _ tr => tr
  | .failure _ tr => tr
  | .thrown tr => tr

/-- The snapshot's state after `_replayRequest` on this entry (callbacks may
have mutated it). -/
def entrySnap (env : Env) (cbs : Callbacks) (k : Nat) (s : StorableRequest) :
    StorableRequest :=
  match replayStep env cbs k s with
  | .success s' _ => s'
  | .failure s' _ => s'
  | .thrown _ => s

/-- Result of the `for`-loop of `replayRequests`: the successfully replayed
snapshots in replay order (`successfullyReplayedRequests`), the
`allReplaysSuccessful` flag, the store after the loop, the loop's trace, and
whether an exception escaped some `_replayRequest` call (aborting the loop). -/
structure LoopOut where
  successes : List StorableRequest
  allOk : Bool
  store : Store
  trace : List Event
  thrown : Bool
deriving Repr

/-- The loop of `replayRequests`: `for (const [key, storableRequest] of
storableRequestsInQueue) { const replaySuccessful = await
this._replayRequest(key, storableRequest); ... }` — each entry is awaited
to completion before the next begins. -/
def replayLoop (env : Env) (cbs : Callbacks) :
    List (Nat × StorableRequest) → Store → LoopOut
  | [], store => ⟨[], true, store, [], false⟩
  | (k, s) :: rest, store =>
    match replayRequest env cbs k s store with
    | .thrown store' tr => ⟨[], true, store', tr, true⟩
    | .done ok s' store' tr =>
      let out := replayLoop env cbs rest store'
      ⟨if ok then s' :: out.successes else out.successes,
        ok && out.allOk, out.store, tr ++ out.trace, out.thrown⟩

/-- Whether a stored entry belongs to this queue and has outlived the
retention window (`Date.now() - storableRequest.timestamp >
this._maxRetentionTime`). -/
def expiredEntry (env : Env) (q : QueueConfig) (e : Entry) : Bool :=
  e.queueName == q.name &&
    decide (env.now - (StorableRequest.fromObject e.storableRequest).timestamp
      > q.maxRetentionTime)

/-- Whether a stored entry belongs to this queue and is within the retention
window, so it is kept for replay. -/
def keptEntry (env : Env) (q : QueueConfig) (e : Entry) : Bool :=
  e.queueName == q.name && !expiredEntry env q e

/-- Result of `_getStorableRequestsInQueue`: the `[key, storableRequest]`
pairs kept for replay, the store after the fire-and-forget deletions of
expired entries, and the deletion trace. -/
structure ScanOut where
  kept : List (Nat × StorableRequest)
  store : Store
  trace : List Event
deriving Repr

/-- The loop of `_getStorableRequestsInQueue`, iterating over the `getAll()`
snapshot while deleting expired entries from the live store. The deletion of
an expired entry is issued without `await` ("it can happen in parallel"); it
is applied here at issue time, which is observationally equivalent within the
pass because the iteration runs over the already-taken snapshot. A deletion
whose store operation fails leaves the entry in place. -/
def expiryScanAux (env : Env) (q : QueueConfig) :
    List (Nat × Entry) → Store → ScanOut
  | [], store => ⟨[], store, []⟩
  | (k, e) :: rest, store =>
    if e.queueName == q.name then
      let s := StorableRequest.fromObject e.storableRequest
      if env.now - s.timestamp > q.maxRetentionTime then
        let store' := if env.deleteOk k
          then store.filter (fun kv => kv.1 != k) else store
        let out := expiryScanAux env q rest store'
        ⟨out.kept, out.store, .storeDelete k :: out.trace⟩
      else
        let out := expiryScanAux env q rest store
        ⟨(k, s) :: out.kept, out.store, out.trace⟩
    else expiryScanAux env q rest store

/-- Semantics of `_getStorableRequestsInQueue`: read `getAll()` (the store itself) and
scan it. -/
def expiryScan (env : Env) (q : QueueConfig) (store : Store) : ScanOut :=
  expiryScanAux env q store store

/-- The result of a public queue operation: the store and the trace on
normal return, or on an escaping exception. -/
inductive OpResult where
  | ok (store : Store) (trace : List Event)
  | error (store : Store) (trace : List Event)
deriving Repr, DecidableEq

/-- The store after an operation. -/
def OpResult.store : OpResult → Store
  | .ok st _ => st
  | .error st _ => st

/-- The trace of an operation. -/
def OpResult.trace : OpResult → List Event
  | .ok _ tr => tr
  | .error _ tr => tr

/-- Whether the operation returned normally (no exception escaped). -/
def OpResult.isOk : OpResult → Bool
  | .ok _ _ => true
  | .error _ _ => false

/-- Semantics of `replayRequests()`: read and expiry-filter the queue's entries; if none
remain, return with no callbacks; otherwise replay them strictly
sequentially; afterwards run `allRequestsDidReplay` when every replay
succeeded, else re-register the sync tag (`this._registerSync()`, whose own
failures are swallowed, so only the attempt is recorded). A `getAll`
failure, or an exception escaping a callback, propagates to the caller. -/
def replayRequests (env : Env) (q : QueueConfig) (store : Store) : OpResult :=
  if !env.getAllOk then .error store []
  else
    let scan := expiryScan env q store
    if scan.kept.isEmpty then .ok scan.store scan.trace
    else
      let out := replayLoop env q.callbacks scan.kept scan.store
      if out.thrown then .error out.store (scan.trace ++ out.trace)
      else if out.allOk then
        match q.callbacks.allRequestsDidReplay with
        | none => .ok out.store (scan.trace ++ out.trace)
        | some f =>
          let tr := scan.trace ++ out.trace ++
            [.cbAllRequestsDidReplay out.successes]
          if f out.successes then .error out.store tr else .ok out.store tr
      else .ok out.store
        (scan.trace ++ out.trace ++ [.registerSync (syncTag q.name)])

/-- The auto-incremented key the store assigns to the next added record. -/
def freshKey (store : Store) : Nat :=
  (store.map Prod.fst).foldr max 0 + 1

/-- Semantics of `addRequest(request)`: snapshot the request, run `requestWillQueue`
(whose synchronous result is what `toObject()` then serializes), persist
`{queueName, storableRequest}`, and schedule a sync registration without
awaiting it. A throwing callback or a failing `db.add` propagates to the
caller, before any later step runs. -/
def addRequest (env : Env) (q : QueueConfig) (store : Store) (r : Request) :
    OpResult :=
  let s := StorableRequest.fromRequest env.now r
  let (s1, threw) := runCb q.callbacks.requestWillQueue s
  let e1 := cbEvents q.callbacks.requestWillQueue (.cbRequestWillQueue s)
  if threw then .error store e1
  else if !env.addOk then .error store e1
  else
    let k := freshKey store
    let entry : Entry := ⟨q.name, s1.toObject⟩
    .ok (store ++ [(k, entry)])
      (e1 ++ [.storeAdd k entry, .registerSync (syncTag q.name)])

/-- Variant of `addRequest` with an asynchronous `requestWillQueue` callback, under a
schedule in which the callback's continuation after its first suspension
runs only after the store write. The code invokes the callback without
awaiting it (`this._runCallback('requestWillQueue', storableRequest)`), so
such a schedule is legal (e.g. a callback that awaits a timer). `syncPart`
is the mutation the callback performs before its first suspension, `tail`
the mutation it performs afterwards. Returns the store after the pass and
the snapshot's eventual in-memory state once the tail has run. -/
def addRequestAsyncCb (env : Env) (name : String)
    (syncPart tail : StorableRequest → StorableRequest)
    (store : Store) (r : Request) : Store × StorableRequest :=
  let s := StorableRequest.fromRequest env.now r
  let s1 := syncPart s
  let k := freshKey store
  let store' := store ++ [(k, ⟨name, s1.toObject⟩)]
  let s2 := tail s1
  (store', s2)

/-- The process-wide state touched by the `Queue` constructor: the module
level `names` set (represented as the list of registered names in
registration order) and the list of installed sync listeners, one per
constructed queue. -/
structure ProcState where
  names : List String
  syncListeners : List String
deriving Repr, DecidableEq

/-- The process-wide error a failed construction throws. -/
inductive CtorError where
  | duplicateQueueName (name : String)
deriving Repr, DecidableEq

/-- The `Queue` constructor's effect on process state: throw
`WorkboxError('duplicate-queue-name')` if the name is registered, else
register it and install this instance's sync listener
(`this._addSyncListener()`). Nothing ever removes a name. -/
def constructQueue (st : ProcState) (name : String) :
    Except CtorError ProcState :=
  if name ∈ st.names then .error (.duplicateQueueName name)
  else .ok ⟨st.names ++ [name], st.syncListeners ++ [name]⟩

/-- Run a sequence of constructions, ignoring failed ones (a throwing
constructor leaves the process state unchanged). -/
def runConstructions (reqs : List String) (st : ProcState) : ProcState :=
  reqs.foldl (fun st n =>
    match constructQueue st n with
    | .ok st' => st'
    | .error _ => st) st

/-- A sync event as delivered to the process, carrying its registration
tag. -/
structure SyncEvent where
  tag : String
deriving Repr, DecidableEq

/-- The listener `_addSyncListener` installs for one queue:
`(event) => event.waitUntil(this.replayRequests())` — it calls
`replayRequests` on its own queue for every sync event; the event's tag is
never inspected. Returns the queues on which the handler starts a replay
pass. -/
def syncHandler (queueName : String) (event : SyncEvent) : List String :=
  match event with
  | _ => [queueName]

/-- Delivering one sync event to the process: every installed listener runs;
the result is the list of queues that start a replay pass. -/
def dispatchSync (st : ProcState) (event : SyncEvent) : List String :=
  (st.syncListeners.map (fun n => syncHandler n event)).flatten

/-! ## Characterization lemmas -/

/-- An entry list on which no `_replayRequest` call lets an exception
escape (in particular, whenever `replayDidFail` runs it returns normally). -/
def NoThrow (env : Env) (cbs : Callbacks)
    (l : List (Nat × StorableRequest)) : Prop :=
  ∀ ks ∈ l, entryThrown env cbs ks.1 ks.2 = false

theorem replayLoop_spec (env : Env) (cbs : Callbacks)
    (l : List (Nat × StorableRequest)) (store : Store)
    (h : NoThrow env cbs l) :
    replayLoop env cbs l store =
      ⟨(l.filter (fun ks => entryOk env cbs ks.1 ks.2)).map
          (fun ks => entrySnap env cbs ks.1 ks.2),
        l.all (fun ks => entryOk env cbs ks.1 ks.2),
        store.filter (fun kv =>
          !(l.any (fun ks => entryOk env cbs ks.1 ks.2 && kv.1 == ks.1))),
        (l.map (fun ks => entryTrace env cbs ks.1 ks.2)).flatten,
        false⟩ := by
  induction l generalizing store with
  | nil => simp [replayLoop]
  | cons hd tl ih =>
    obtain ⟨k, s⟩ := hd
    have hhd : entryThrown env cbs k s = false := h (k, s) (List.mem_cons_self _ _)
    have htl : NoThrow env cbs tl := fun ks hks => h ks (List.mem_cons_of_mem _ hks)
    cases hstep : replayStep env cbs k s with
    | success s' tr =>
      have hok : entryOk env cbs k s = true := by simp [entryOk, hstep]
      have hsnap : entrySnap env cbs k s = s' := by simp [entrySnap, hstep]
      have htr : entryTrace env cbs k s = tr := by simp [entryTrace, hstep]
      have hfilter :
          ((store.filter (fun kv => kv.1 != k)).filter (fun kv =>
            !(tl.any (fun ks => entryOk env cbs ks.1 ks.2 && kv.1 == ks.1)))) =
          store.filter (fun kv =>
            !(((k, s) :: tl).any
              (fun ks => entryOk env cbs ks.1 ks.2 && kv.1 == ks.1))) := by
        rw [List.filter_filter]
        apply List.filter_congr
        intro kv _
        simp [hok, bne, Bool.not_or, Bool.and_comm]
      simp only [replayLoop, replayRequest, hstep, ih _ htl]
      simp [hok, hsnap, htr, hfilter]
    | failure s' tr =>
      have hok : entryOk env cbs k s = false := by simp [entryOk, hstep]
      have htr : entryTrace env cbs k s = tr := by simp [entryTrace, hstep]
      have hfilter :
          (store.filter (fun kv =>
            !(tl.any (fun ks => entryOk env cbs ks.1 ks.2 && kv.1 == ks.1)))) =
          store.filter (fun kv =>
            !(((k, s) :: tl).any
              (fun ks => entryOk env cbs ks.1 ks.2 && kv.1 == ks.1))) := by
        apply List.filter_congr
        intro kv _
        simp [hok]
      simp only [replayLoop, replayRequest, hstep, ih _ htl]
      simp [hok, htr, hfilter]
    | thrown tr =>
      exfalso
      simp [entryThrown, hstep] at hhd

theorem expiryScanAux_spec (env : Env) (q : QueueConfig)
    (l : List (Nat × Entry)) (store : Store) :
    expiryScanAux env q l store =
      ⟨(l.filter (fun ke => keptEntry env q ke.2)).map
          (fun ke => (ke.1, StorableRequest.fromObject ke.2.storableRequest)),
        store.filter (fun kv =>
          !(l.any (fun ke =>
            expiredEntry env q ke.2 && env.deleteOk ke.1 && kv.1 == ke.1))),
        (l.filter (fun ke => expiredEntry env q ke.2)).map
          (fun ke => Event.storeDelete ke.1)⟩ := by
  induction l generalizing store with
  | nil => simp [expiryScanAux]
  | cons hd tl ih =>
    obtain ⟨k, e⟩ := hd
    by_cases hname : (e.queueName == q.name) = true
    · by_cases hexp :
        env.now - (StorableRequest.fromObject e.storableRequest).timestamp
          > q.maxRetentionTime
      · have hexpired : expiredEntry env q e = true := by
          simp [expiredEntry, hname, hexp]
        have hkept : keptEntry env q e = false := by
          simp [keptEntry, hexpired]
        by_cases hdel : env.deleteOk k = true
        · have hfilter :
              ((store.filter (fun kv => kv.1 != k)).filter (fun kv =>
                !(tl.any (fun ke => expiredEntry env q ke.2 &&
                  env.deleteOk ke.1 && kv.1 == ke.1)))) =
              store.filter (fun kv =>
                !(((k, e) :: tl).any (fun ke => expiredEntry env q ke.2 &&
                  env.deleteOk ke.1 && kv.1 == ke.1))) := by
            rw [List.filter_filter]
            apply List.filter_congr
            intro kv _
            simp [hexpired, hdel, bne, Bool.not_or, Bool.and_comm]
          simp only [expiryScanAux, hname, if_pos hexp, if_true, hdel, ih]
          simp [hexpired, hkept, hfilter]
        · have hdel' : env.deleteOk k = false := by
            cases h : env.deleteOk k
            · rfl
            · exact absurd h hdel
          have hfilter :
              (store.filter (fun kv =>
                !(tl.any (fun ke => expiredEntry env q ke.2 &&
                  env.deleteOk ke.1 && kv.1 == ke.1)))) =
              store.filter (fun kv =>
                !(((k, e) :: tl).any (fun ke => expiredEntry env q ke.2 &&
                  env.deleteOk ke.1 && kv.1 == ke.1))) := by
            apply List.filter_congr
            intro kv _
            simp [hdel']
          simp only [expiryScanAux, hname, if_pos hexp, hdel', ih]
          simp [hexpired, hkept, hfilter]
      · have hexpired : expiredEntry env q e = false := by
          simp [expiredEntry, hexp]
        have hkept : keptEntry env q e = true := by
          simp [keptEntry, hname, hexpired]
        have hfilter :
            (store.filter (fun kv =>
              !(tl.any (fun ke => expiredEntry env q ke.2 &&
                env.deleteOk ke.1 && kv.1 == ke.1)))) =
            store.filter (fun kv =>
              !(((k, e) :: tl).any (fun ke => expiredEntry env q ke.2 &&
                env.deleteOk ke.1 && kv.1 == ke.1))) := by
          apply List.filter_congr
          intro kv _
          simp [hexpired]
        simp only [expiryScanAux, hname, if_neg hexp, ih]
        simp [hexpired, hkept, hfilter]
    · have hname' : (e.queueName == q.name) = false := by
        cases h : (e.queueName == q.name)
        · rfl
        · exact absurd h hname
      have hexpired : expiredEntry env q e = false := by
        simp [expiredEntry, hname']
      have hkept : keptEntry env q e = false := by
        simp [keptEntry, hname']
      have hfilter :
          (store.filter (fun kv =>
            !(tl.any (fun ke => expiredEntry env q ke.2 &&
              env.deleteOk ke.1 && kv.1 == ke.1)))) =
          store.filter (fun kv =>
            !(((k, e) :: tl).any (fun ke => expiredEntry env q ke.2 &&
              env.deleteOk ke.1 && kv.1 == ke.1))) := by
        apply List.filter_congr
        intro kv _
        simp [hexpired]
      simp only [expiryScanAux, hname', ih]
      simp [hexpired, hkept, hfilter]

/-- A callback slot whose invocations all return normally (a missing
callback trivially does). -/
def CbTotal (cb : Option Callback) : Prop :=
  ∀ x, (runCb cb x).2 = false

/-- The trace of a `StepOut`. -/
def StepOut.trace : StepOut → List Event
  | .success _ tr => tr
  | .failure _ tr => tr
  | .thrown tr => tr

theorem replayCatch_eq (cbs : Callbacks) (k : Nat) (s : StorableRequest)
    (pre : List Event) (hdf : CbTotal cbs.replayDidFail) :
    replayCatch cbs k s pre =
      .failure (runCb cbs.replayDidFail s).1
        (pre ++ cbEvents cbs.replayDidFail (.cbReplayDidFail k s)) := by
  have h := hdf s
  unfold replayCatch
  rcases hcb : runCb cbs.replayDidFail s with ⟨s', threw⟩
  rw [hcb] at h
  simp at h
  simp [hcb, h]

theorem replayStep_cases (env : Env) (cbs : Callbacks) (k : Nat)
    (s : StorableRequest) (hdf : CbTotal cbs.replayDidFail) :
    (∃ s' tr, replayStep env cbs k s = .success s' tr) ∨
    (∃ s' tr, replayStep env cbs k s = .failure s' tr) := by
  unfold replayStep
  rcases h1 : runCb cbs.requestWillReplay s with ⟨s1, t1⟩
  cases t1 with
  | true =>
    dsimp only
    rw [if_pos rfl, replayCatch_eq cbs k s1 _ hdf]
    right
    exact ⟨_, _, rfl⟩
  | false =>
    dsimp only
    rw [if_neg (by simp)]
    by_cases hf : env.fetchOk k = true
    · rw [if_pos hf]
      rcases h2 : runCb cbs.requestDidReplay s1 with ⟨s2, t2⟩
      cases t2 with
      | true =>
        dsimp only
        rw [if_pos rfl, replayCatch_eq cbs k s2 _ hdf]
        right
        exact ⟨_, _, rfl⟩
      | false =>
        dsimp only
        rw [if_neg (by simp)]
        by_cases hd : env.deleteOk k = true
        · rw [if_pos hd]
          left
          exact ⟨_, _, rfl⟩
        · rw [if_neg hd, replayCatch_eq cbs k s2 _ hdf]
          right
          exact ⟨_, _, rfl⟩
    · rw [if_neg hf, replayCatch_eq cbs k s1 _ hdf]
      right
      exact ⟨_, _, rfl⟩

theorem entryThrown_false (env : Env) (cbs : Callbacks) (k : Nat)
    (s : StorableRequest) (hdf : CbTotal cbs.replayDidFail) :
    entryThrown env cbs k s = false := by
  rcases replayStep_cases env cbs k s hdf with ⟨s', tr, h⟩ | ⟨s', tr, h⟩ <;>
    simp [entryThrown, h]

theorem noThrow_of_total (env : Env) (cbs : Callbacks)
    (l : List (Nat × StorableRequest)) (hdf : CbTotal cbs.replayDidFail) :
    NoThrow env cbs l :=
  fun ks _ => entryThrown_false env cbs ks.1 ks.2 hdf

theorem key_unique {α : Type} {l : List (Nat × α)}
    (h : l.Pairwise (fun a b => a.1 < b.1)) {k : Nat} {x y : α}
    (h1 : (k, x) ∈ l) (h2 : (k, y) ∈ l) : x = y := by
  induction l with
  | nil => cases h1
  | cons hd tl ih =>
    rcases List.pairwise_cons.mp h with ⟨hhd, htl⟩
    rcases List.mem_cons.mp h1 with h1 | h1 <;>
      rcases List.mem_cons.mp h2 with h2 | h2
    · rw [← h1] at h2
      exact (Prod.mk.injEq _ _ _ _ ▸ h2).2.symm
    · exact absurd (hhd _ h2) (by rw [← h1]; simp)
    · exact absurd (hhd _ h1) (by rw [← h2]; simp)
    · exact ih htl h1 h2

theorem mem_kept_iff (env : Env) (q : QueueConfig) (store : Store)
    (k : Nat) (s : StorableRequest) :
    (k, s) ∈ (expiryScan env q store).kept ↔
      ∃ e, (k, e) ∈ store ∧ keptEntry env q e = true ∧
        s = StorableRequest.fromObject e.storableRequest := by
  rw [expiryScan, expiryScanAux_spec]
  simp only [List.mem_map, List.mem_filter]
  constructor
  · rintro ⟨⟨k', e⟩, ⟨hmem, hkept⟩, heq⟩
    rw [Prod.mk.injEq] at heq
    exact ⟨e, heq.1 ▸ hmem, hkept, heq.2.symm⟩
  · rintro ⟨e, hmem, hkept, hs⟩
    exact ⟨(k, e), ⟨hmem, hkept⟩, by rw [Prod.mk.injEq]; exact ⟨rfl, hs.symm⟩⟩

theorem kept_pairwise (env : Env) (q : QueueConfig) (store : Store)
    (hsorted : store.Pairwise (fun a b => a.1 < b.1)) :
    (expiryScan env q store).kept.Pairwise (fun a b => a.1 < b.1) := by
  rw [expiryScan, expiryScanAux_spec]
  exact (List.pairwise_map).mpr (hsorted.filter _)

theorem scan_trace_shape (env : Env) (q : QueueConfig) (store : Store) :
    ∀ ev ∈ (expiryScan env q store).trace, ∃ k, ev = Event.storeDelete k := by
  rw [expiryScan, expiryScanAux_spec]
  intro ev hev
  rcases List.mem_map.mp hev with ⟨ke, _, heq⟩
  exact ⟨ke.1, heq.symm⟩

theorem mem_cbEvents {e ev : Event} {cb : Option Callback}
    (h : e ∈ cbEvents cb ev) : e = ev := by
  unfold cbEvents at h
  cases cb <;> simp at h
  exact h

theorem entryTrace_keys (env : Env) (cbs : Callbacks) (k : Nat)
    (s : StorableRequest) :
    ∀ ev ∈ entryTrace env cbs k s, evKey ev = some k := by
  have hcatch : ∀ s' pre, (∀ ev ∈ pre, evKey ev = some k) →
      ∀ ev ∈ (replayCatch cbs k s' pre).trace, evKey ev = some k := by
    intro s' pre hpre ev hev
    unfold replayCatch at hev
    rcases hcb : runCb cbs.replayDidFail s' with ⟨s'', threw⟩
    rw [hcb] at hev
    simp only at hev
    have hev' : ev ∈ pre ++ cbEvents cbs.replayDidFail (.cbReplayDidFail k s') := by
      cases threw <;> simpa [StepOut.trace] using hev
    rcases List.mem_append.mp hev' with h | h
    · exact hpre ev h
    · rw [mem_cbEvents h]
      rfl
  intro ev hev
  have hev' : ev ∈ (replayStep env cbs k s).trace := by
    unfold entryTrace at hev
    cases h : replayStep env cbs k s <;> rw [h] at hev <;> simpa [StepOut.trace] using hev
  clear hev
  unfold replayStep at hev'
  rcases h1 : runCb cbs.requestWillReplay s with ⟨s1, t1⟩
  rw [h1] at hev'
  simp only at hev'
  have he1 : ∀ e ∈ cbEvents cbs.requestWillReplay (.cbRequestWillReplay k s),
      evKey e = some k := by
    intro e he
    rw [mem_cbEvents he]
    rfl
  cases t1 with
  | true =>
    rw [if_pos rfl] at hev'
    exact hcatch s1 _ he1 ev hev'
  | false =>
    rw [if_neg (by simp)] at hev'
    have he2 : ∀ e ∈ cbEvents cbs.requestWillReplay (.cbRequestWillReplay k s)
        ++ [Event.fetchAttempt k s1], evKey e = some k := by
      intro e he
      rcases List.mem_append.mp he with h | h
      · exact he1 e h
      · simp at h
        rw [h]
        rfl
    by_cases hf : env.fetchOk k = true
    · rw [if_pos hf] at hev'
      rcases h2 : runCb cbs.requestDidReplay s1 with ⟨s2, t2⟩
      rw [h2] at hev'
      simp only at hev'
      have he3 : ∀ e ∈ (cbEvents cbs.requestWillReplay (.cbRequestWillReplay k s)
          ++ [Event.fetchAttempt k s1])
          ++ cbEvents cbs.requestDidReplay (.cbRequestDidReplay k s1),
          evKey e = some k := by
        intro e he
        rcases List.mem_append.mp he with h | h
        · exact he2 e h
        · rw [mem_cbEvents h]
          rfl
      cases t2 with
      | true =>
        rw [if_pos rfl] at hev'
        exact hcatch s2 _ he3 ev hev'
      | false =>
        rw [if_neg (by simp)] at hev'
        have he4 : ∀ e ∈ ((cbEvents cbs.requestWillReplay (.cbRequestWillReplay k s)
            ++ [Event.fetchAttempt k s1])
            ++ cbEvents cbs.requestDidReplay (.cbRequestDidReplay k s1))
            ++ [Event.storeDelete k], evKey e = some k := by
          intro e he
          rcases List.mem_append.mp he with h | h
          · exact he3 e h
          · simp at h
            rw [h]
            rfl
        by_cases hd : env.deleteOk k = true
        · rw [if_pos hd] at hev'
          exact he4 ev (by simpa [StepOut.trace] using hev')
        · rw [if_neg hd] at hev'
          exact hcatch s2 _ he4 ev hev'
    · rw [if_neg hf] at hev'
      exact hcatch s1 _ he2 ev hev'

theorem replayRequests_store_decomp (env : Env) (q : QueueConfig)
    (store : Store) (hget : env.getAllOk = true)
    (hdf : CbTotal q.callbacks.replayDidFail) :
    (replayRequests env q store).store =
      (expiryScan env q store).store.filter (fun kv =>
        !((expiryScan env q store).kept.any
          (fun ks => entryOk env q.callbacks ks.1 ks.2 && kv.1 == ks.1))) := by
  unfold replayRequests
  rw [hget]
  dsimp only
  rw [if_neg (by simp)]
  by_cases hne : ((expiryScan env q store).kept.isEmpty) = true
  · rw [if_pos hne]
    rw [List.isEmpty_iff.mp hne]
    simp [OpResult.store]
  · rw [if_neg hne,
      replayLoop_spec env q.callbacks _ _
        (noThrow_of_total env q.callbacks _ hdf)]
    dsimp only
    rw [if_neg (by simp)]
    split
    · split
      · rfl
      · split <;> rfl
    · rfl

theorem replayRequests_trace_decomp (env : Env) (q : QueueConfig)
    (store : Store) (hget : env.getAllOk = true)
    (hdf : CbTotal q.callbacks.replayDidFail) :
    ∃ suffix, (∀ ev ∈ suffix, evKey ev = none) ∧
      (replayRequests env q store).trace =
        (expiryScan env q store).trace ++
        ((expiryScan env q store).kept.map
          (fun ks => entryTrace env q.callbacks ks.1 ks.2)).flatten ++ suffix := by
  unfold replayRequests
  rw [hget]
  dsimp only
  rw [if_neg (by simp)]
  by_cases hne : ((expiryScan env q store).kept.isEmpty) = true
  · refine ⟨[], by simp, ?_⟩
    rw [if_pos hne]
    rw [List.isEmpty_iff.mp hne]
    simp [OpResult.trace]
  · rw [if_neg hne,
      replayLoop_spec env q.callbacks _ _
        (noThrow_of_total env q.callbacks _ hdf)]
    dsimp only
    rw [if_neg (by simp)]
    split
    · split
      · exact ⟨[], by simp, by simp [OpResult.trace]⟩
      · split <;>
          exact ⟨[Event.cbAllRequestsDidReplay
            (((expiryScan env q store).kept.filter
              (fun ks => entryOk env q.callbacks ks.1 ks.2)).map
              (fun ks => entrySnap env q.callbacks ks.1 ks.2))],
            by simp [evKey], by simp [OpResult.trace]⟩
    · exact ⟨[Event.registerSync (syncTag q.name)], by simp [evKey],
        by simp [OpResult.trace]⟩

theorem replayRequests_some_failed (env : Env) (q : QueueConfig)
    (store : Store) (hget : env.getAllOk = true)
    (hdf : CbTotal q.callbacks.replayDidFail)
    (hne : (expiryScan env q store).kept ≠ [])
    (hnotall : (expiryScan env q store).kept.all
      (fun ks => entryOk env q.callbacks ks.1 ks.2) = false) :
    replayRequests env q store =
      .ok ((expiryScan env q store).store.filter (fun kv =>
          !((expiryScan env q store).kept.any
            (fun ks => entryOk env q.callbacks ks.1 ks.2 && kv.1 == ks.1))))
        ((expiryScan env q store).trace ++
         ((expiryScan env q store).kept.map
           (fun ks => entryTrace env q.callbacks ks.1 ks.2)).flatten ++
         [.registerSync (syncTag q.name)]) := by
  unfold replayRequests
  rw [hget]
  dsimp only
  rw [if_neg (by simp)]
  rw [if_neg (fun h => hne (List.isEmpty_iff.mp h))]
  rw [replayLoop_spec env q.callbacks _ _
    (noThrow_of_total env q.callbacks _ hdf)]
  dsimp only
  rw [if_neg (by simp), if_neg (by simp [hnotall])]

theorem replayRequests_all_ok (env : Env) (q : QueueConfig)
    (store : Store) (f : List StorableRequest → Bool)
    (hget : env.getAllOk = true)
    (hdf : CbTotal q.callbacks.replayDidFail)
    (hne : (expiryScan env q store).kept ≠ [])
    (hall : (expiryScan env q store).kept.all
      (fun ks => entryOk env q.callbacks ks.1 ks.2) = true)
    (hcb : q.callbacks.allRequestsDidReplay = some f)
    (hf : ∀ l, f l = false) :
    replayRequests env q store =
      .ok ((expiryScan env q store).store.filter (fun kv =>
          !((expiryScan env q store).kept.any
            (fun ks => entryOk env q.callbacks ks.1 ks.2 && kv.1 == ks.1))))
        ((expiryScan env q store).trace ++
         ((expiryScan env q store).kept.map
           (fun ks => entryTrace env q.callbacks ks.1 ks.2)).flatten ++
         [.cbAllRequestsDidReplay ((expiryScan env q store).kept.map
           (fun ks => entrySnap env q.callbacks ks.1 ks.2))]) := by
  have hfe : (expiryScan env q store).kept.filter
      (fun ks => entryOk env q.callbacks ks.1 ks.2) =
      (expiryScan env q store).kept :=
    List.filter_eq_self.mpr (fun a ha => List.all_eq_true.mp hall a ha)
  unfold replayRequests
  rw [hget]
  dsimp only
  rw [if_neg (by simp)]
  rw [if_neg (fun h => hne (List.isEmpty_iff.mp h))]
  rw [replayLoop_spec env q.callbacks _ _
    (noThrow_of_total env q.callbacks _ hdf)]
  dsimp only
  rw [if_neg (by simp), if_pos hall, hcb]
  dsimp only
  rw [hfe, if_neg (by simp [hf])]

theorem replayStep_fetch_fail (env : Env) (cbs : Callbacks) (k : Nat)
    (s : StorableRequest)
    (hwr : (runCb cbs.requestWillReplay s).2 = false)
    (hf : env.fetchOk k = false)
    (hdf : CbTotal cbs.replayDidFail) :
    replayStep env cbs k s =
      .failure (runCb cbs.replayDidFail (runCb cbs.requestWillReplay s).1).1
        (cbEvents cbs.requestWillReplay (.cbRequestWillReplay k s) ++
         [.fetchAttempt k (runCb cbs.requestWillReplay s).1] ++
         cbEvents cbs.replayDidFail
           (.cbReplayDidFail k (runCb cbs.requestWillReplay s).1)) := by
  unfold replayStep
  rcases h1 : runCb cbs.requestWillReplay s with ⟨s1, t1⟩
  rw [h1] at hwr
  simp at hwr
  subst hwr
  dsimp only
  rw [if_neg (by simp), if_neg (by simp [hf]), replayCatch_eq cbs k s1 _ hdf]

theorem replayStep_didreplay_throw (env : Env) (cbs : Callbacks) (k : Nat)
    (s : StorableRequest)
    (hwr : (runCb cbs.requestWillReplay s).2 = false)
    (hf : env.fetchOk k = true)
    (hgd : (runCb cbs.requestDidReplay (runCb cbs.requestWillReplay s).1).2 = true)
    (hdf : CbTotal cbs.replayDidFail) :
    replayStep env cbs k s =
      .failure (runCb cbs.replayDidFail
          (runCb cbs.requestDidReplay (runCb cbs.requestWillReplay s).1).1).1
        (cbEvents cbs.requestWillReplay (.cbRequestWillReplay k s) ++
         [.fetchAttempt k (runCb cbs.requestWillReplay s).1] ++
         cbEvents cbs.requestDidReplay
           (.cbRequestDidReplay k (runCb cbs.requestWillReplay s).1) ++
         cbEvents cbs.replayDidFail
           (.cbReplayDidFail k
             (runCb cbs.requestDidReplay (runCb cbs.requestWillReplay s).1).1)) := by
  unfold replayStep
  rcases h1 : runCb cbs.requestWillReplay s with ⟨s1, t1⟩
  rw [h1] at hwr hgd
  simp at hwr
  subst hwr
  dsimp only
  rw [if_neg (by simp), if_pos hf]
  rcases h2 : runCb cbs.requestDidReplay s1 with ⟨s2, t2⟩
  rw [h2] at hgd
  simp at hgd
  subst hgd
  dsimp only
  rw [if_pos rfl, replayCatch_eq cbs k s2 _ hdf]

theorem replayStep_delete_fail (env : Env) (cbs : Callbacks) (k : Nat)
    (s : StorableRequest)
    (hwr : (runCb cbs.requestWillReplay s).2 = false)
    (hf : env.fetchOk k = true)
    (hgd : (runCb cbs.requestDidReplay (runCb cbs.requestWillReplay s).1).2 = false)
    (hdel : env.deleteOk k = false)
    (hdf : CbTotal cbs.replayDidFail) :
    replayStep env cbs k s =
      .failure (runCb cbs.replayDidFail
          (runCb cbs.requestDidReplay (runCb cbs.requestWillReplay s).1).1).1
        (cbEvents cbs.requestWillReplay (.cbRequestWillReplay k s) ++
         [.fetchAttempt k (runCb cbs.requestWillReplay s).1] ++
         cbEvents cbs.requestDidReplay
           (.cbRequestDidReplay k (runCb cbs.requestWillReplay s).1) ++
         [.storeDelete k] ++
         cbEvents cbs.replayDidFail
           (.cbReplayDidFail k
             (runCb cbs.requestDidReplay (runCb cbs.requestWillReplay s).1).1)) := by
  unfold replayStep
  rcases h1 : runCb cbs.requestWillReplay s with ⟨s1, t1⟩
  rw [h1] at hwr hgd
  simp at hwr
  subst hwr
  dsimp only
  rw [if_neg (by simp), if_pos hf]
  rcases h2 : runCb cbs.requestDidReplay s1 with ⟨s2, t2⟩
  rw [h2] at hgd
  simp at hgd
  subst hgd
  dsimp only
  rw [if_neg (by simp), if_neg (by simp [hdel]), replayCatch_eq cbs k s2 _ hdf]

theorem failed_entry_remains (env : Env) (q : QueueConfig) (store : Store)
    (k : Nat) (s : StorableRequest) (e : Entry)
    (hget : env.getAllOk = true)
    (hsorted : store.Pairwise (fun a b => a.1 < b.1))
    (hdf : CbTotal q.callbacks.replayDidFail)
    (hmem : (k, e) ∈ store) (hkept : keptEntry env q e = true)
    (hs : s = StorableRequest.fromObject e.storableRequest)
    (hfail : entryOk env q.callbacks k s = false) :
    (k, e) ∈ (replayRequests env q store).store := by
  have hexp : expiredEntry env q e = false := by
    unfold keptEntry at hkept
    rcases Bool.and_eq_true_iff.mp hkept with ⟨_, h⟩
    simpa using h
  rw [replayRequests_store_decomp env q store hget hdf]
  rw [List.mem_filter]
  constructor
  · rw [expiryScan, expiryScanAux_spec]
    rw [List.mem_filter]
    refine ⟨hmem, ?_⟩
    rw [Bool.not_eq_true']
    rw [List.any_eq_false]
    rintro ⟨k', e'⟩ hmem'
    rw [Bool.not_eq_true]
    by_cases hk : k = k'
    · subst hk
      have : e' = e := key_unique hsorted hmem' hmem
      subst this
      simp [hexp]
    · simp
      exact fun _ _ => hk
  · rw [Bool.not_eq_true']
    rw [List.any_eq_false]
    rintro ⟨k', s'⟩ hmem'
    rw [Bool.not_eq_true]
    by_cases hk : k = k'
    · subst hk
      rcases (mem_kept_iff env q store k s').mp hmem' with ⟨e', hmem'', _, hs'⟩
      have : e' = e := key_unique hsorted hmem'' hmem
      subst this
      rw [← hs] at hs'
      subst hs'
      simp [hfail]
    · simp
      exact fun _ => hk

theorem mem_trace_of_kept (env : Env) (q : QueueConfig) (store : Store)
    (k : Nat) (s : StorableRequest) (ev : Event)
    (hget : env.getAllOk = true)
    (hdf : CbTotal q.callbacks.replayDidFail)
    (hmem : (k, s) ∈ (expiryScan env q store).kept)
    (hev : ev ∈ entryTrace env q.callbacks k s) :
    ev ∈ (replayRequests env q store).trace := by
  obtain ⟨suffix, _, htr⟩ := replayRequests_trace_decomp env q store hget hdf
  rw [htr]
  refine List.mem_append.mpr (Or.inl (List.mem_append.mpr (Or.inr ?_)))
  exact List.mem_flatten.mpr ⟨_, List.mem_map.mpr ⟨(k, s), hmem, rfl⟩, hev⟩

theorem filter_of_map {α β : Type} (l : List α) (f : α → β) (p : β → Bool) :
    (l.map f).filter p = (l.filter (fun a => p (f a))).map f := by
  induction l with
  | nil => rfl
  | cons hd tl ih => by_cases h : p (f hd) <;> simp [h, ih]

theorem filter_key_singleton {α : Type} {l : List (Nat × α)}
    (h : l.Pairwise (fun a b => a.1 < b.1)) {k : Nat} {x : α}
    (hmem : (k, x) ∈ l) (p : Nat × α → Bool) (hp : p (k, x) = true)
    (hkey : ∀ a, p a = true → a.1 = k) :
    l.filter p = [(k, x)] := by
  induction l with
  | nil => cases hmem
  | cons hd tl ih =>
    rcases List.pairwise_cons.mp h with ⟨hhd, htl⟩
    by_cases hphd : p hd = true
    · have hhdk : hd.1 = k := hkey hd hphd
      have hhdx : hd = (k, x) := by
        rcases List.mem_cons.mp hmem with hm | hm
        · exact hm.symm
        · exact absurd (hhdk ▸ hhd _ hm) (by simp)
      rw [List.filter_cons_of_pos hphd, hhdx]
      have htail : tl.filter p = [] := by
        refine List.filter_eq_nil_iff.mpr (fun a ha hpa => ?_)
        have := hhd a ha
        rw [hhdk] at this
        rw [hkey a hpa] at this
        exact absurd this (by simp)
      rw [htail]
    · have hm : (k, x) ∈ tl := by
        rcases List.mem_cons.mp hmem with hm | hm
        · rw [← hm] at hphd
          exact absurd hp hphd
        · exact hm
      rw [List.filter_cons_of_neg (by simpa using hphd)]
      exact ih htl hm

theorem flatten_keys (env : Env) (q : QueueConfig) (store : Store) :
    ∀ ev ∈ ((expiryScan env q store).kept.map
      (fun ks => entryTrace env q.callbacks ks.1 ks.2)).flatten,
      ∃ k', evKey ev = some k' ∧
        ∃ s', (k', s') ∈ (expiryScan env q store).kept := by
  intro ev hev
  rcases List.mem_flatten.mp hev with ⟨tr, htr, hevtr⟩
  rcases List.mem_map.mp htr with ⟨ks, hks, rfl⟩
  exact ⟨ks.1, entryTrace_keys env q.callbacks ks.1 ks.2 ev hevtr, ks.2, hks⟩

theorem fetch_in_entryTrace (env : Env) (cbs : Callbacks) (k : Nat)
    (s : StorableRequest)
    (hwr : (runCb cbs.requestWillReplay s).2 = false)
    (hdf : CbTotal cbs.replayDidFail) :
    Event.fetchAttempt k ((runCb cbs.requestWillReplay s).1) ∈
      entryTrace env cbs k s := by
  unfold entryTrace replayStep
  rcases h1 : runCb cbs.requestWillReplay s with ⟨s1, t1⟩
  rw [h1] at hwr
  simp at hwr
  subst hwr
  dsimp only
  rw [if_neg (by simp)]
  by_cases hfk : env.fetchOk k = true
  · rw [if_pos hfk]
    rcases h2 : runCb cbs.requestDidReplay s1 with ⟨s2, t2⟩
    dsimp only
    cases t2 with
    | true =>
      rw [if_pos rfl, replayCatch_eq cbs k s2 _ hdf]
      simp
    | false =>
      rw [if_neg (by simp)]
      by_cases hd : env.deleteOk k = true
      · rw [if_pos hd]
        simp
      · rw [if_neg hd, replayCatch_eq cbs k s2 _ hdf]
        simp
  · rw [if_neg hfk, replayCatch_eq cbs k s1 _ hdf]
    simp

theorem no_allreplay_when_failed (env : Env) (q : QueueConfig) (store : Store)
    (hget : env.getAllOk = true)
    (hdf : CbTotal q.callbacks.replayDidFail)
    (hne : (expiryScan env q store).kept ≠ [])
    (hnotall : (expiryScan env q store).kept.all
      (fun ks => entryOk env q.callbacks ks.1 ks.2) = false) :
    (∀ l, Event.cbAllRequestsDidReplay l ∉ (replayRequests env q store).trace) ∧
    Event.registerSync (syncTag q.name) ∈ (replayRequests env q store).trace ∧
    (replayRequests env q store).isOk = true := by
  rw [replayRequests_some_failed env q store hget hdf hne hnotall]
  refine ⟨?_, ?_, rfl⟩
  · intro l hl
    rcases List.mem_append.mp hl with hl | hl
    · rcases List.mem_append.mp hl with hl | hl
      · rcases scan_trace_shape env q store _ hl with ⟨k', hk'⟩
        cases hk'
      · rcases flatten_keys env q store _ hl with ⟨k', hk', _⟩
        cases hk'
    · simp [OpResult.trace] at hl
  · simp [OpResult.trace]

theorem flatten_map_singleton {α : Type} (l : List α) :
    (l.map (fun a => [a])).flatten = l := by
  induction l <;> simp [*]

theorem runConstructions_names_mono (reqs : List String) (st : ProcState)
    (n : String) (h : n ∈ st.names) :
    n ∈ (runConstructions reqs st).names := by
  induction reqs generalizing st with
  | nil => exact h
  | cons r rs ih =>
    rw [runConstructions, List.foldl_cons]
    by_cases hr : r ∈ st.names
    · simp only [constructQueue, if_pos hr]
      exact ih st h
    · simp only [constructQueue, if_neg hr]
      exact ih _ (by simp [h])

/-! ## Concrete scenario values, used by witnesses and counterexamples -/

/-- A fresh (non-expired) snapshot. -/
def snapFresh : StorableRequest :=
  ⟨"POST", "https://e/a", [("a", "b")], some [1, 2], "cors", "", 950⟩

/-- The persisted form of `snapFresh`. -/
def objFresh : StorableObject := snapFresh.toObject

/-- A stale snapshot, older than the retention window. -/
def snapOld : StorableRequest :=
  ⟨"POST", "https://e/old", [], some [3], "cors", "", 0⟩

/-- The persisted form of `snapOld`. -/
def objOld : StorableObject := snapOld.toObject

/-- A malformed persisted object: a GET with a body. -/
def objGet : StorableObject :=
  ⟨"GET", "https://e/g", [["h", "v"]], some [9], "cors", "", 10⟩

/-- A well-behaved callback: no mutation, no throw. -/
def cbId : Callback := fun s => (s, false)

/-- A full set of well-behaved callbacks. -/
def cbsW : Callbacks :=
  { requestWillQueue := some cbId
    requestWillReplay := some cbId
    requestDidReplay := some cbId
    replayDidFail := some cbId
    allRequestsDidReplay := some (fun _ => false) }

/-- A queue named `q` with a 100ms retention window. -/
def qW : QueueConfig := ⟨"q", 100, cbsW⟩

/-- Callbacks whose `requestDidReplay` throws. -/
def cbsThrow : Callbacks :=
  { requestWillQueue := some cbId
    requestWillReplay := some cbId
    requestDidReplay := some (fun s => (s, true))
    replayDidFail := some cbId
    allRequestsDidReplay := some (fun _ => false) }

/-- The queue `qW` with the throwing `requestDidReplay` callback. -/
def qThrow : QueueConfig := ⟨"q", 100, cbsThrow⟩

/-- A benign environment: all fetches and store operations succeed. -/
def envW : Env := ⟨1000, fun _ => true, fun _ => true, true, true⟩

/-- Every network fetch fails. -/
def envF : Env := ⟨1000, fun _ => false, fun _ => true, true, true⟩

/-- Every store delete fails. -/
def envD : Env := ⟨1000, fun _ => true, fun _ => false, true, true⟩

/-- A store holding one expired and one fresh entry for `q`, plus an entry
of another queue. -/
def storeW : Store :=
  [(1, ⟨"q", objOld⟩), (2, ⟨"q", objFresh⟩), (3, ⟨"other", objFresh⟩)]

/-- A live request with a body-bearing method. -/
def reqW : Request :=
  ⟨"POST", "https://e/a", [("a", "b")], some [1, 2], "cors", ""⟩

/-- An asynchronous-callback tail mutation: rewrites the URL after the
callback's first suspension. -/
def tailMut : StorableRequest → StorableRequest :=
  fun s => { s with url := "mutated" }

/-! ## Claim theorems -/

/-- C1: within one replay pass, the non-expired entries of the queue are
processed strictly sequentially in ascending store-key (insertion) order:
the kept entry list is strictly ascending in keys; the replay loop's trace
is exactly the concatenation of the per-entry traces in that order, so every
event of entry N — its success or failure callback and any store deletion —
precedes every event of entry N+1, in particular entry N+1's network
attempt; and the whole pass's trace is the expiry-scan trace followed by
that concatenation and a keyless suffix. -/
theorem c1_replay_sequential_ascending
    (env : Env) (q : QueueConfig) (store : Store)
    (hsorted : store.Pairwise (fun a b => a.1 < b.1))
    (hget : env.getAllOk = true)
    (hdf : CbTotal q.callbacks.replayDidFail) :
    (expiryScan env q store).kept.Pairwise (fun a b => a.1 < b.1) ∧
    (replayLoop env q.callbacks (expiryScan env q store).kept
        (expiryScan env q store).store).trace =
      ((expiryScan env q store).kept.map
        (fun ks => entryTrace env q.callbacks ks.1 ks.2)).flatten ∧
    ∃ suffix, (replayRequests env q store).trace =
      (expiryScan env q store).trace ++
      ((expiryScan env q store).kept.map
        (fun ks => entryTrace env q.callbacks ks.1 ks.2)).flatten ++ suffix := by
  refine ⟨kept_pairwise env q store hsorted, ?_, ?_⟩
  · rw [replayLoop_spec env q.callbacks _ _
      (noThrow_of_total env q.callbacks _ hdf)]
  · obtain ⟨suffix, _, htr⟩ := replayRequests_trace_decomp env q store hget hdf
    exact ⟨suffix, htr⟩

/-- Witness for C1 at a concrete sorted store and benign environment. -/
theorem c1_replay_sequential_ascending_witness :
    storeW.Pairwise (fun a b => a.1 < b.1) ∧
    ((expiryScan envW qW storeW).kept.Pairwise (fun a b => a.1 < b.1) ∧
     (replayLoop envW qW.callbacks (expiryScan envW qW storeW).kept
        (expiryScan envW qW storeW).store).trace =
      ((expiryScan envW qW storeW).kept.map
        (fun ks => entryTrace envW qW.callbacks ks.1 ks.2)).flatten ∧
     ∃ suffix, (replayRequests envW qW storeW).trace =
      (expiryScan envW qW storeW).trace ++
      ((expiryScan envW qW storeW).kept.map
        (fun ks => entryTrace envW qW.callbacks ks.1 ks.2)).flatten ++ suffix) :=
  ⟨by decide,
    c1_replay_sequential_ascending envW qW storeW (by decide) rfl
      (fun x => rfl)⟩

/-- C4: an entry of this queue read during a replay pass whose age exceeds
`maxRetentionTime` is deleted from the store, and the pass's trace contains
no event for its key other than that deletion — no lifecycle callback is
invoked for it and no network replay is attempted for it. -/
theorem c4_expired_entry_purged_silently
    (env : Env) (q : QueueConfig) (store : Store) (k : Nat) (e : Entry)
    (hget : env.getAllOk = true)
    (hsorted : store.Pairwise (fun a b => a.1 < b.1))
    (hdf : CbTotal q.callbacks.replayDidFail)
    (hmem : (k, e) ∈ store)
    (hname : e.queueName = q.name)
    (hage : env.now - (StorableRequest.fromObject e.storableRequest).timestamp
      > q.maxRetentionTime)
    (hdel : env.deleteOk k = true) :
    (∀ kv ∈ (replayRequests env q store).store, kv.1 ≠ k) ∧
    (replayRequests env q store).trace.filter
      (fun ev => evKey ev == some k) = [Event.storeDelete k] := by
  have hexpired : expiredEntry env q e = true := by
    simp [expiredEntry, hname, hage]
  have hkeptkey : ∀ s', (k, s') ∉ (expiryScan env q store).kept := by
    intro s' hmem'
    rcases (mem_kept_iff env q store k s').mp hmem' with ⟨e', hmem'', hkept', _⟩
    have : e' = e := key_unique hsorted hmem'' hmem
    subst this
    unfold keptEntry at hkept'
    rw [hexpired] at hkept'
    simp at hkept'
  constructor
  · intro kv hkv
    rw [replayRequests_store_decomp env q store hget hdf] at hkv
    have hkv' := (List.mem_filter.mp hkv).1
    rw [expiryScan, expiryScanAux_spec] at hkv'
    rcases List.mem_filter.mp hkv' with ⟨hkvstore, hσ⟩
    intro hkey
    rw [Bool.not_eq_true'] at hσ
    have := List.any_eq_false.mp hσ (k, e) hmem
    simp [hexpired, hdel, hkey] at this
  · obtain ⟨suffix, hsufkeys, htr⟩ :=
      replayRequests_trace_decomp env q store hget hdf
    rw [htr, List.filter_append, List.filter_append]
    have hscan : (expiryScan env q store).trace.filter
        (fun ev => evKey ev == some k) = [Event.storeDelete k] := by
      rw [expiryScan, expiryScanAux_spec]
      dsimp only
      rw [filter_of_map]
      rw [List.filter_filter]
      rw [filter_key_singleton hsorted hmem
        (fun a => (evKey (Event.storeDelete a.1) == some k) &&
          expiredEntry env q a.2)
        (by simp [evKey, hexpired]) (fun a ha => by
          rcases Bool.and_eq_true_iff.mp ha with ⟨h1, _⟩
          simpa [evKey] using h1)]
      rfl
    have hflat : (((expiryScan env q store).kept.map
        (fun ks => entryTrace env q.callbacks ks.1 ks.2)).flatten).filter
        (fun ev => evKey ev == some k) = [] := by
      refine List.filter_eq_nil_iff.mpr (fun ev hev hkey => ?_)
      rcases flatten_keys env q store ev hev with ⟨k', hk', s', hks'⟩
      rw [hk'] at hkey
      simp at hkey
      subst hkey
      exact hkeptkey s' hks'
    have hsuf : suffix.filter (fun ev => evKey ev == some k) = [] := by
      refine List.filter_eq_nil_iff.mpr (fun ev hev hkey => ?_)
      rw [hsufkeys ev hev] at hkey
      simp at hkey
    rw [hscan, hflat, hsuf]
    rfl

/-- Witness for C4: the expired entry with key 1 is purged with no callback
or fetch event for it. -/
theorem c4_expired_entry_purged_silently_witness :
    (1, (⟨"q", objOld⟩ : Entry)) ∈ storeW ∧
    envW.now - (StorableRequest.fromObject objOld).timestamp >
      qW.maxRetentionTime ∧
    (replayRequests envW qW storeW).trace.filter
      (fun ev => evKey ev == some 1) = [Event.storeDelete 1] :=
  ⟨by decide, by decide,
    (c4_expired_entry_purged_silently envW qW storeW 1 ⟨"q", objOld⟩ rfl
      (by decide) (fun x => rfl) (by decide) rfl (by decide) rfl).2⟩

/-- C2: for a replay pass over a non-empty (after expiry filtering) entry
list: if every entry's replay succeeds, `allRequestsDidReplay` is invoked
exactly once, with the successfully replayed snapshots in replay order, and
the store afterwards holds zero entries for this queue; if at least one
entry fails, `allRequestsDidReplay` is not invoked and a sync
re-registration attempt is made instead. -/
theorem c2_pass_outcome
    (env : Env) (q : QueueConfig) (store : Store)
    (f : List StorableRequest → Bool)
    (hget : env.getAllOk = true)
    (hdel : ∀ k, env.deleteOk k = true)
    (hdf : CbTotal q.callbacks.replayDidFail)
    (hcb : q.callbacks.allRequestsDidReplay = some f)
    (hf : ∀ l, f l = false)
    (hne : (expiryScan env q store).kept ≠ []) :
    ((expiryScan env q store).kept.all
        (fun ks => entryOk env q.callbacks ks.1 ks.2) = true →
      ((replayRequests env q store).trace.count
          (Event.cbAllRequestsDidReplay ((expiryScan env q store).kept.map
            (fun ks => entrySnap env q.callbacks ks.1 ks.2))) = 1 ∧
       (∀ l, Event.cbAllRequestsDidReplay l ∈ (replayRequests env q store).trace →
          l = (expiryScan env q store).kept.map
            (fun ks => entrySnap env q.callbacks ks.1 ks.2)) ∧
       (replayRequests env q store).store.filter
          (fun kv => kv.2.queueName == q.name) = [])) ∧
    ((expiryScan env q store).kept.all
        (fun ks => entryOk env q.callbacks ks.1 ks.2) = false →
      ((∀ l, Event.cbAllRequestsDidReplay l ∉ (replayRequests env q store).trace) ∧
       Event.registerSync (syncTag q.name) ∈ (replayRequests env q store).trace)) := by
  constructor
  · intro hall
    rw [replayRequests_all_ok env q store f hget hdf hne hall hcb hf]
    refine ⟨?_, ?_, ?_⟩
    · rw [OpResult.trace, List.count_append, List.count_append]
      have h1 : (expiryScan env q store).trace.count
          (Event.cbAllRequestsDidReplay ((expiryScan env q store).kept.map
            (fun ks => entrySnap env q.callbacks ks.1 ks.2))) = 0 := by
        refine List.count_eq_zero.mpr (fun hmem => ?_)
        rcases scan_trace_shape env q store _ hmem with ⟨k', hk'⟩
        cases hk'
      have h2 : (((expiryScan env q store).kept.map
          (fun ks => entryTrace env q.callbacks ks.1 ks.2)).flatten).count
          (Event.cbAllRequestsDidReplay ((expiryScan env q store).kept.map
            (fun ks => entrySnap env q.callbacks ks.1 ks.2))) = 0 := by
        refine List.count_eq_zero.mpr (fun hmem => ?_)
        rcases flatten_keys env q store _ hmem with ⟨k', hk', _⟩
        cases hk'
      rw [h1, h2]
      simp
    · intro l hl
      rw [OpResult.trace] at hl
      rcases List.mem_append.mp hl with hl | hl
      · rcases List.mem_append.mp hl with hl | hl
        · rcases scan_trace_shape env q store _ hl with ⟨k', hk'⟩
          cases hk'
        · rcases flatten_keys env q store _ hl with ⟨k', hk', _⟩
          cases hk'
      · simp at hl
        exact hl
    · rw [OpResult.store]
      refine List.filter_eq_nil_iff.mpr (fun kv hkv hqname => ?_)
      rcases List.mem_filter.mp hkv with ⟨hkv', hπ⟩
      rw [expiryScan, expiryScanAux_spec] at hkv'
      rcases List.mem_filter.mp hkv' with ⟨hkvstore, hσ⟩
      by_cases hexp : expiredEntry env q kv.2 = true
      · rw [Bool.not_eq_true'] at hσ
        have := List.any_eq_false.mp hσ kv hkvstore
        simp [hexp, hdel kv.1] at this
      · have hkept : keptEntry env q kv.2 = true := by
          unfold keptEntry
          simp only [Bool.not_eq_true] at hexp
          simp [hqname, hexp]
        have hmemk : (kv.1, StorableRequest.fromObject kv.2.storableRequest) ∈
            (expiryScan env q store).kept :=
          (mem_kept_iff env q store kv.1 _).mpr ⟨kv.2, by simpa using hkvstore,
            hkept, rfl⟩
        rw [Bool.not_eq_true'] at hπ
        have := List.any_eq_false.mp hπ _ hmemk
        have hok := List.all_eq_true.mp hall _ hmemk
        simp [hok] at this
  · intro hnotall
    exact ⟨(no_allreplay_when_failed env q store hget hdf hne hnotall).1,
      (no_allreplay_when_failed env q store hget hdf hne hnotall).2.1⟩

/-- Witness for C2 in the all-successful case: `allRequestsDidReplay` is
invoked exactly once and the store is emptied for the queue. -/
theorem c2_pass_outcome_witness :
    (expiryScan envW qW storeW).kept ≠ [] ∧
    ((replayRequests envW qW storeW).trace.count
        (Event.cbAllRequestsDidReplay ((expiryScan envW qW storeW).kept.map
          (fun ks => entrySnap envW qW.callbacks ks.1 ks.2))) = 1 ∧
     (replayRequests envW qW storeW).store.filter
        (fun kv => kv.2.queueName == qW.name) = []) := by
  have h := (c2_pass_outcome envW qW storeW (fun _ => false) rfl
    (fun k => rfl) (fun x => rfl) rfl (fun l => rfl) (by decide)).1 (by decide)
  exact ⟨by decide, h.1, h.2.2⟩

/-- C3: for an entry whose network replay attempt fails within a pass:
`replayDidFail` is invoked for that entry's snapshot, the entry remains
persisted in the store, every (kept) entry of the pass still gets its
network attempt — the pass continues rather than aborting — and
`replayRequests` returns normally, never throwing the failure to its
caller. -/
theorem c3_network_failure_per_entry
    (env : Env) (q : QueueConfig) (store : Store) (k : Nat)
    (s : StorableRequest) (fdf : Callback)
    (hget : env.getAllOk = true)
    (hsorted : store.Pairwise (fun a b => a.1 < b.1))
    (hwr : CbTotal q.callbacks.requestWillReplay)
    (hdfp : q.callbacks.replayDidFail = some fdf)
    (hdf : CbTotal q.callbacks.replayDidFail)
    (hmem : (k, s) ∈ (expiryScan env q store).kept)
    (hfetch : env.fetchOk k = false) :
    Event.cbReplayDidFail k ((runCb q.callbacks.requestWillReplay s).1) ∈
        (replayRequests env q store).trace ∧
    (∃ e, (k, e) ∈ store ∧ (k, e) ∈ (replayRequests env q store).store) ∧
    (∀ k' s', (k', s') ∈ (expiryScan env q store).kept →
      Event.fetchAttempt k' ((runCb q.callbacks.requestWillReplay s').1) ∈
        (replayRequests env q store).trace) ∧
    (replayRequests env q store).isOk = true := by
  have hstep := replayStep_fetch_fail env q.callbacks k s (hwr s) hfetch hdf
  have hok : entryOk env q.callbacks k s = false := by
    simp [entryOk, hstep]
  have hnotall : (expiryScan env q store).kept.all
      (fun ks => entryOk env q.callbacks ks.1 ks.2) = false :=
    List.all_eq_false.mpr ⟨(k, s), hmem, by simp [hok]⟩
  refine ⟨?_, ?_, ?_, ?_⟩
  · apply mem_trace_of_kept env q store k s _ hget hdf hmem
    unfold entryTrace
    rw [hstep]
    simp [hdfp, cbEvents]
  · rcases (mem_kept_iff env q store k s).mp hmem with ⟨e, hmem', hkept, hs⟩
    exact ⟨e, hmem', failed_entry_remains env q store k s e hget hsorted hdf
      hmem' hkept hs hok⟩
  · intro k' s' hmem'
    exact mem_trace_of_kept env q store k' s' _ hget hdf hmem'
      (fetch_in_entryTrace env q.callbacks k' s' (hwr s') hdf)
  · exact (no_allreplay_when_failed env q store hget hdf
      (List.ne_nil_of_mem hmem) hnotall).2.2

/-- Witness for C3: with every fetch failing, entry 2's failure is reported
via `replayDidFail` and `replayRequests` still returns normally. -/
theorem c3_network_failure_per_entry_witness :
    envF.fetchOk 2 = false ∧
    Event.cbReplayDidFail 2 ((runCb qW.callbacks.requestWillReplay snapFresh).1) ∈
      (replayRequests envF qW storeW).trace ∧
    (replayRequests envF qW storeW).isOk = true := by
  have h := c3_network_failure_per_entry envF qW storeW 2 snapFresh cbId rfl
    (by decide) (fun x => rfl) rfl (fun x => rfl) (by decide) rfl
  exact ⟨rfl, h.1, h.2.2.2⟩

/-- C9: for an entry whose network fetch succeeds but whose
`requestDidReplay` callback throws: the entry is not deleted from the
store, `replayDidFail` is additionally invoked for the same snapshot, and
the entry counts as a failure for the pass — `allRequestsDidReplay` is not
invoked and a sync re-registration attempt is made, leaving the entry
queued for a later pass. -/
theorem c9_didreplay_throw_counts_as_failure
    (env : Env) (q : QueueConfig) (store : Store) (k : Nat)
    (s : StorableRequest) (g fdf : Callback)
    (hget : env.getAllOk = true)
    (hsorted : store.Pairwise (fun a b => a.1 < b.1))
    (hwr : CbTotal q.callbacks.requestWillReplay)
    (hgd : q.callbacks.requestDidReplay = some g)
    (hthrow : (g ((runCb q.callbacks.requestWillReplay s).1)).2 = true)
    (hdfp : q.callbacks.replayDidFail = some fdf)
    (hdf : CbTotal q.callbacks.replayDidFail)
    (hmem : (k, s) ∈ (expiryScan env q store).kept)
    (hfetch : env.fetchOk k = true) :
    entryOk env q.callbacks k s = false ∧
    (∃ e, (k, e) ∈ store ∧ (k, e) ∈ (replayRequests env q store).store) ∧
    Event.cbRequestDidReplay k ((runCb q.callbacks.requestWillReplay s).1) ∈
      (replayRequests env q store).trace ∧
    Event.cbReplayDidFail k ((g ((runCb q.callbacks.requestWillReplay s).1)).1) ∈
      (replayRequests env q store).trace ∧
    (∀ l, Event.cbAllRequestsDidReplay l ∉ (replayRequests env q store).trace) ∧
    Event.registerSync (syncTag q.name) ∈ (replayRequests env q store).trace := by
  have hthrow' : (runCb q.callbacks.requestDidReplay
      ((runCb q.callbacks.requestWillReplay s).1)).2 = true := by
    rw [hgd]
    exact hthrow
  have hstep := replayStep_didreplay_throw env q.callbacks k s (hwr s)
    hfetch hthrow' hdf
  have hok : entryOk env q.callbacks k s = false := by
    simp [entryOk, hstep]
  have hnotall : (expiryScan env q store).kept.all
      (fun ks => entryOk env q.callbacks ks.1 ks.2) = false :=
    List.all_eq_false.mpr ⟨(k, s), hmem, by simp [hok]⟩
  have hrest := no_allreplay_when_failed env q store hget hdf
    (List.ne_nil_of_mem hmem) hnotall
  refine ⟨hok, ?_, ?_, ?_, hrest.1, hrest.2.1⟩
  · rcases (mem_kept_iff env q store k s).mp hmem with ⟨e, hmem', hkept, hs⟩
    exact ⟨e, hmem', failed_entry_remains env q store k s e hget hsorted hdf
      hmem' hkept hs hok⟩
  · apply mem_trace_of_kept env q store k s _ hget hdf hmem
    unfold entryTrace
    rw [hstep]
    simp [hgd, cbEvents]
  · apply mem_trace_of_kept env q store k s _ hget hdf hmem
    unfold entryTrace
    rw [hstep]
    rw [hgd]
    simp [hdfp, cbEvents, runCb]

/-- Witness for C9: with a throwing `requestDidReplay`, entry 2 survives the
pass and `replayDidFail` runs for it. -/
theorem c9_didreplay_throw_counts_as_failure_witness :
    (2, snapFresh) ∈ (expiryScan envW qThrow storeW).kept ∧
    entryOk envW qThrow.callbacks 2 snapFresh = false ∧
    Event.registerSync (syncTag qThrow.name) ∈
      (replayRequests envW qThrow storeW).trace := by
  have h := c9_didreplay_throw_counts_as_failure envW qThrow storeW 2
    snapFresh (fun s => (s, true)) cbId rfl (by decide) (fun x => rfl) rfl
    rfl rfl (fun x => rfl) (by decide) rfl
  exact ⟨by decide, h.1, h.2.2.2.2.2⟩

/-- C5 counterexample: an asynchronous `requestWillQueue` callback that
mutates the snapshot only after its first suspension. The code invokes the
callback without awaiting it, so under a schedule where the continuation
runs after the store write, the persisted entry keeps the original URL
while the snapshot's eventual state has the mutated one — the mutation is
not reflected in what gets persisted, contrary to the claim. -/
theorem c5_async_mutation_not_persisted :
    (addRequestAsyncCb envW "q" id tailMut [] reqW).2.url = "mutated" ∧
    (addRequestAsyncCb envW "q" id tailMut [] reqW).1 =
      [(1, ⟨"q", (StorableRequest.fromRequest 1000 reqW).toObject⟩)] ∧
    (StorableRequest.fromRequest 1000 reqW).toObject.url = "https://e/a" := by
  decide

/-- C5 (amended): `requestWillQueue` is invoked before persistence, and the
mutation it performs synchronously (before any suspension) is reflected in
the persisted entry — the invocation event precedes the store-add event and
the persisted object serializes the callback's result. Mutations an
asynchronous callback performs after its first suspension are not covered,
since the invocation is not awaited. -/
theorem c5_sync_mutation_reflected
    (env : Env) (q : QueueConfig) (store : Store) (r : Request) (f : Callback)
    (hcb : q.callbacks.requestWillQueue = some f)
    (hnothrow : (f (StorableRequest.fromRequest env.now r)).2 = false)
    (hadd : env.addOk = true) :
    addRequest env q store r =
      .ok (store ++ [(freshKey store,
          ⟨q.name, (f (StorableRequest.fromRequest env.now r)).1.toObject⟩)])
        [Event.cbRequestWillQueue (StorableRequest.fromRequest env.now r),
         Event.storeAdd (freshKey store)
           ⟨q.name, (f (StorableRequest.fromRequest env.now r)).1.toObject⟩,
         Event.registerSync (syncTag q.name)] := by
  unfold addRequest
  rw [hcb]
  simp only [runCb]
  rcases hfs : f (StorableRequest.fromRequest env.now r) with ⟨s1, tf⟩
  rw [hfs] at hnothrow
  simp at hnothrow
  subst hnothrow
  dsimp only
  rw [if_neg (by simp), if_neg (by simp [hadd])]
  simp [cbEvents]

/-- Witness for the amended C5 at a concrete request and callback. -/
theorem c5_sync_mutation_reflected_witness :
    qW.callbacks.requestWillQueue = some cbId ∧
    addRequest envW qW [] reqW =
      .ok ([] ++ [(freshKey [],
          ⟨qW.name, (cbId (StorableRequest.fromRequest envW.now reqW)).1.toObject⟩)])
        [Event.cbRequestWillQueue (StorableRequest.fromRequest envW.now reqW),
         Event.storeAdd (freshKey [])
           ⟨qW.name, (cbId (StorableRequest.fromRequest envW.now reqW)).1.toObject⟩,
         Event.registerSync (syncTag qW.name)] :=
  ⟨rfl, c5_sync_mutation_reflected envW qW [] reqW cbId rfl rfl rfl⟩

/-- C6 counterexample: a store `delete` failure inside a replay pass does
not propagate to the caller of `replayRequests` — the delete is attempted
(`storeDelete 2` is in the trace), the environment fails it, yet the pass
returns normally and the entry stays in the store. -/
theorem c6_delete_failure_not_propagated :
    envD.deleteOk 2 = false ∧
    Event.storeDelete 2 ∈ (replayRequests envD qW [(2, ⟨"q", objFresh⟩)]).trace ∧
    (replayRequests envD qW [(2, ⟨"q", objFresh⟩)]).isOk = true ∧
    (replayRequests envD qW [(2, ⟨"q", objFresh⟩)]).store =
      [(2, ⟨"q", objFresh⟩)] := by
  decide

/-- C6 (amended): `add` failures in `addRequest` and `getAll` failures in
`replayRequests` propagate to the caller, and neither drops an enqueued
entry; a `delete` failure during a replay pass does not propagate — it is
caught by the per-entry try/catch, the entry counts as failed, stays
persisted, and the failure is surfaced through `replayDidFail` — so no
store failure silently drops an already-enqueued entry. -/
theorem c6_store_failure_policy
    (env : Env) (q : QueueConfig) (store : Store) (r : Request)
    (k : Nat) (s : StorableRequest) (fdf : Callback) :
    (env.addOk = false →
      (runCb q.callbacks.requestWillQueue
        (StorableRequest.fromRequest env.now r)).2 = false →
      ((addRequest env q store r).isOk = false ∧
        (addRequest env q store r).store = store)) ∧
    (env.getAllOk = false → replayRequests env q store = .error store []) ∧
    (env.getAllOk = true →
      store.Pairwise (fun a b => a.1 < b.1) →
      CbTotal q.callbacks.requestWillReplay →
      CbTotal q.callbacks.requestDidReplay →
      q.callbacks.replayDidFail = some fdf →
      CbTotal q.callbacks.replayDidFail →
      (k, s) ∈ (expiryScan env q store).kept →
      env.fetchOk k = true →
      env.deleteOk k = false →
      ((replayRequests env q store).isOk = true ∧
       (∃ e, (k, e) ∈ store ∧ (k, e) ∈ (replayRequests env q store).store) ∧
       Event.storeDelete k ∈ (replayRequests env q store).trace ∧
       Event.cbReplayDidFail k
           ((runCb q.callbacks.requestDidReplay
             ((runCb q.callbacks.requestWillReplay s).1)).1) ∈
         (replayRequests env q store).trace)) := by
  refine ⟨?_, ?_, ?_⟩
  · intro haddfail hnothrow
    unfold addRequest
    dsimp only
    rcases hfs : runCb q.callbacks.requestWillQueue
      (StorableRequest.fromRequest env.now r) with ⟨s1, tf⟩
    rw [hfs] at hnothrow
    simp at hnothrow
    subst hnothrow
    dsimp only
    rw [if_neg (by simp), if_pos (by simp [haddfail])]
    exact ⟨rfl, rfl⟩
  · intro hgetfail
    unfold replayRequests
    rw [if_pos (by simp [hgetfail])]
  · intro hget hsorted hwr hgd hdfp hdf hmem hfetch hdelfail
    have hstep := replayStep_delete_fail env q.callbacks k s (hwr s) hfetch
      (hgd _) hdelfail hdf
    have hok : entryOk env q.callbacks k s = false := by
      simp [entryOk, hstep]
    have hnotall : (expiryScan env q store).kept.all
        (fun ks => entryOk env q.callbacks ks.1 ks.2) = false :=
      List.all_eq_false.mpr ⟨(k, s), hmem, by simp [hok]⟩
    refine ⟨(no_allreplay_when_failed env q store hget hdf
        (List.ne_nil_of_mem hmem) hnotall).2.2, ?_, ?_, ?_⟩
    · rcases (mem_kept_iff env q store k s).mp hmem with ⟨e, hmem', hkept, hs⟩
      exact ⟨e, hmem', failed_entry_remains env q store k s e hget hsorted hdf
        hmem' hkept hs hok⟩
    · apply mem_trace_of_kept env q store k s _ hget hdf hmem
      unfold entryTrace
      rw [hstep]
      simp
    · apply mem_trace_of_kept env q store k s _ hget hdf hmem
      unfold entryTrace
      rw [hstep]
      simp [hdfp, cbEvents]

/-- Witness for the amended C6: an `add` failure propagates out of
`addRequest`, and a `delete` failure during a pass is surfaced through
`replayDidFail` while the entry stays persisted. -/
theorem c6_store_failure_policy_witness :
    ((addRequest ⟨1000, fun _ => true, fun _ => true, false, true⟩ qW
        storeW reqW).isOk = false) ∧
    (replayRequests envD qW storeW).isOk = true ∧
    Event.storeDelete 2 ∈ (replayRequests envD qW storeW).trace := by
  have h1 := (c6_store_failure_policy
    ⟨1000, fun _ => true, fun _ => true, false, true⟩ qW storeW reqW 2
    snapFresh cbId).1 rfl rfl
  have h3 := (c6_store_failure_policy envD qW storeW reqW 2 snapFresh cbId).2.2
    rfl (by decide) (fun x => rfl) (fun x => rfl) rfl (fun x => rfl)
    (by decide) rfl rfl
  exact ⟨h1.1, h3.1, h3.2.2.1⟩

/-- C7: constructing a Queue with name `n` succeeds exactly when `n` is not
already registered; a duplicate name fails with the duplicate-queue-name
error; a successful construction appends the name to the registry; and
names are never removed — after any further sequence of constructions a
registered name is still registered and still unavailable. -/
theorem c7_queue_name_registry (st : ProcState) (n : String) :
    ((∃ st', constructQueue st n = .ok st') ↔ n ∉ st.names) ∧
    (n ∈ st.names →
      constructQueue st n = .error (.duplicateQueueName n)) ∧
    (∀ st', constructQueue st n = .ok st' → st'.names = st.names ++ [n]) ∧
    (∀ reqs, n ∈ st.names →
      n ∈ (runConstructions reqs st).names ∧
      constructQueue (runConstructions reqs st) n =
        .error (.duplicateQueueName n)) := by
  refine ⟨⟨?_, ?_⟩, ?_, ?_, ?_⟩
  · rintro ⟨st', h⟩ hn
    unfold constructQueue at h
    rw [if_pos hn] at h
    cases h
  · intro hn
    exact ⟨_, by unfold constructQueue; rw [if_neg hn]⟩
  · intro hn
    unfold constructQueue
    rw [if_pos hn]
  · intro st' h
    unfold constructQueue at h
    by_cases hn : n ∈ st.names
    · rw [if_pos hn] at h
      cases h
    · rw [if_neg hn] at h
      injection h with h
      rw [← h]
  · intro reqs hn
    have hm := runConstructions_names_mono reqs st n hn
    exact ⟨hm, by unfold constructQueue; rw [if_pos hm]⟩

/-- Witness for C7: after constructing `a`, then `b` and attempting `a`
again, the duplicate attempt still fails. -/
theorem c7_queue_name_registry_witness :
    ("a" ∈ (ProcState.mk ["a"] ["a"]).names) ∧
    "a" ∈ (runConstructions ["b", "a"] (ProcState.mk ["a"] ["a"])).names ∧
    constructQueue (runConstructions ["b", "a"] (ProcState.mk ["a"] ["a"])) "a" =
      .error (.duplicateQueueName "a") := by
  have h := (c7_queue_name_registry (ProcState.mk ["a"] ["a"]) "a").2.2.2
    ["b", "a"] (by decide)
  exact ⟨by decide, h.1, h.2⟩

/-- C8: `fromObject (toObject s)` equals `s` in every field, with body
bytes comparing byte-for-byte; for a request with a body-bearing method,
`fromObject (toObject (fromRequest r))` reconstructs a request whose
method, URL, header pairs, and body bytes equal those of `r`; for GET, the
reconstructed request carries no body even if one was present in a
malformed input object. -/
theorem c8_snapshot_roundtrip :
    (∀ s : StorableRequest, StorableRequest.fromObject s.toObject = s) ∧
    (∀ (now : Int) (r : Request), bodyForbidden r.method = false →
      ((StorableRequest.fromObject
          (StorableRequest.fromRequest now r).toObject).toRequest.method =
        r.method ∧
       (StorableRequest.fromObject
          (StorableRequest.fromRequest now r).toObject).toRequest.url =
        r.url ∧
       (StorableRequest.fromObject
          (StorableRequest.fromRequest now r).toObject).toRequest.headers =
        r.headers ∧
       (StorableRequest.fromObject
          (StorableRequest.fromRequest now r).toObject).toRequest.body =
        r.body)) ∧
    (∀ o : StorableObject, o.method = "GET" →
      (StorableRequest.fromObject o).toRequest.body = none) := by
  have hmapmap : ∀ h : List (String × String),
      (h.map (fun p => [p.1, p.2])).map
        (fun l => (l.getD 0 "", l.getD 1 "")) = h := by
    intro h
    rw [List.map_map]
    have : ((fun l : List String => (l.getD 0 "", l.getD 1 "")) ∘
        fun p : String × String => [p.1, p.2]) = id := funext fun p => rfl
    rw [this, List.map_id]
  refine ⟨?_, ?_, ?_⟩
  · intro s
    cases s with
    | mk m u h b mo re t =>
      simp only [StorableRequest.toObject, StorableRequest.fromObject,
        StorableRequest.mk.injEq]
      exact ⟨trivial, trivial, hmapmap h, trivial, trivial, trivial, trivial⟩
  · intro now r hbody
    refine ⟨rfl, rfl, ?_, ?_⟩
    · simp only [StorableRequest.toObject, StorableRequest.fromObject,
        StorableRequest.fromRequest, StorableRequest.toRequest]
      exact hmapmap r.headers
    · simp [StorableRequest.toObject, StorableRequest.fromObject,
        StorableRequest.fromRequest, StorableRequest.toRequest, hbody]
  · intro o ho
    simp [StorableRequest.fromObject, StorableRequest.toRequest,
      bodyForbidden, ho]

/-- Witness for C8: the round trip preserves the POST body and strips the
body a malformed GET object carries. -/
theorem c8_snapshot_roundtrip_witness :
    bodyForbidden reqW.method = false ∧
    (StorableRequest.fromObject
        (StorableRequest.fromRequest 1000 reqW).toObject).toRequest.body =
      reqW.body ∧
    (StorableRequest.fromObject objGet).toRequest.body = none :=
  ⟨by decide, (c8_snapshot_roundtrip.2.1 1000 reqW (by decide)).2.2.2,
    c8_snapshot_roundtrip.2.2 objGet rfl⟩

/-- C10: the sync listener installed at construction starts a replay pass
on every sync event, regardless of the event's tag — dispatching an event
carrying any queue's registration tag triggers `replayRequests` on every
live queue, not only the tagged one — and each successful construction
installs exactly one more listener. -/
theorem c10_sync_listener_ignores_tag (st : ProcState) (tag m n : String) :
    dispatchSync st ⟨tag⟩ = st.syncListeners ∧
    (n ∈ st.syncListeners → n ∈ dispatchSync st ⟨syncTag m⟩) ∧
    (∀ st', constructQueue st n = .ok st' →
      st'.syncListeners = st.syncListeners ++ [n]) := by
  have hdisp : ∀ t : String, dispatchSync st ⟨t⟩ = st.syncListeners := by
    intro t
    unfold dispatchSync syncHandler
    exact flatten_map_singleton st.syncListeners
  refine ⟨hdisp tag, ?_, ?_⟩
  · intro hn
    rw [hdisp (syncTag m)]
    exact hn
  · intro st' h
    unfold constructQueue at h
    by_cases hn : n ∈ st.names
    · rw [if_pos hn] at h
      cases h
    · rw [if_neg hn] at h
      injection h with h
      rw [← h]

/-- Witness for C10: an event tagged for queue `a` also fires queue `b`'s
listener. -/
theorem c10_sync_listener_ignores_tag_witness :
    ("b" ∈ (ProcState.mk ["a", "b"] ["a", "b"]).syncListeners) ∧
    "b" ∈ dispatchSync (ProcState.mk ["a", "b"] ["a", "b"]) ⟨syncTag "a"⟩ :=
  ⟨by decide,
    (c10_sync_listener_ignores_tag (ProcState.mk ["a", "b"] ["a", "b"])
      "x" "a" "b").2.1 (by decide)⟩

end Workbox
